import Mathlib

/-!
Verification of the test-execution engine of the AtCoderRustTools CLI
(`src/atc/src/commands/test.rs`) against its natural-language specification.

The Rust module is shallowly embedded: filesystem reads, process spawning and
the wall-clock are represented by explicit environment fields, the
poll-and-sleep supervision loop by a recursion over the list of elapsed-time
values observed at each loop head, and Rust panics (`unwrap` on `None`/`Err`)
by an outer `Option` layer (`none` = the function aborts abnormally instead of
returning).
-/

namespace Atc

/-! ## Whitespace trimming (Rust `str::trim`) -/

/-- Unicode `White_Space` property, the predicate used by Rust's
`char::is_whitespace`. -/
def isRustWhitespace (c : Char) : Bool :=
  c.val == 0x9 || c.val == 0xA || c.val == 0xB || c.val == 0xC || c.val == 0xD ||
  c.val == 0x20 || c.val == 0x85 || c.val == 0xA0 || c.val == 0x1680 ||
  (0x2000 ≤ c.val && c.val ≤ 0x200A) ||
  c.val == 0x2028 || c.val == 0x2029 || c.val == 0x202F || c.val == 0x205F ||
  c.val == 0x3000

/-- Rust `str::trim`: drop leading and trailing whitespace characters. -/
def rustTrim (s : String) : String :=
  String.mk (((s.data.dropWhile isRustWhitespace).reverse.dropWhile
    isRustWhitespace).reverse)

/-! ## Data model (`TestStatus`, `TestCaseResult`) -/

/-- Rust enum `TestStatus` from `test.rs`. -/
inductive TestStatus where
  | AC
  | WA
  | TLE
  | RE
deriving DecidableEq, Repr

/-- Rust struct `TestCaseResult` from `test.rs`. `execution_time` is the
`u128` millisecond count, embedded as `Nat`. -/
structure TestCaseResult where
  test_case_name : String
  status : TestStatus
  execution_time : Nat
  error_message : Option String
deriving DecidableEq, Repr

/-! ## Fixture collection (`collect_test_cases`) -/

/-- A directory entry, split as Rust `Path::with_extension` splits it:
a stem and an optional extension. -/
structure DirEntry where
  stem : String
  ext : Option String
deriving DecidableEq, Repr

/-- Rust `Path::file_name` for an entry of the `tests` directory. -/
def fileName (e : DirEntry) : String :=
  match e.ext with
  | some x => e.stem ++ "." ++ x
  | none => e.stem

/-- Boolean membership test on directory entries, modelling
`Path::exists` for a file inside the listed `tests` directory. -/
def containsEntry (all : List DirEntry) (e : DirEntry) : Bool :=
  all.any (fun x => decide (x = e))

/-- Body of the `for entry in fs::read_dir(..)` loop of `collect_test_cases`:
`all` is the full directory listing (used for the `.out` existence check),
the second argument the remaining entries to process.  Returns the collected
`(input, output)` pairs and the warnings printed for orphan inputs. -/
def collectGo (all : List DirEntry) :
    List DirEntry → List (DirEntry × DirEntry) × List String
  | [] => ([], [])
  | e :: rest =>
    let acc := collectGo all rest
    if e.ext.getD "" = "in" then
      if containsEntry all ⟨e.stem, some "out"⟩ then
        ((e, ⟨e.stem, some "out"⟩) :: acc.1, acc.2)
      else
        (acc.1, ("Warning: No matching output file for " ++ fileName e) :: acc.2)
    else acc

/-- Rust `collect_test_cases`: pair every `.in` entry of the `tests`
directory with its sibling `.out` entry; warn and skip orphan inputs. -/
def collect_test_cases (entries : List DirEntry) :
    List (DirEntry × DirEntry) × List String :=
  collectGo entries entries

/-! ## Timeout resolution (`load_problem_timeout_settings`) -/

/-- TOML values, as far as `test.rs` inspects them (`toml::Value`).
Values other than these behave like `string` for this module: their
`as_integer` is `none`. -/
inductive TomlValue where
  | integer (n : Int)
  | string (s : String)
  | boolean (b : Bool)
  | array (elems : List TomlValue)
  | table (entries : List (String × TomlValue))

/-- Rust `toml::Value::get`: key lookup, `None` on non-tables. -/
def TomlValue.getKey : TomlValue → String → Option TomlValue
  | .table es, k => es.lookup k
  | _, _ => none

/-- Rust `toml::Value::as_integer`. -/
def TomlValue.as_integer : TomlValue → Option Int
  | .integer n => some n
  | _ => none

/-- Rust `as u64` cast from `i64`, wrapping modulo `2 ^ 64`. -/
def intAsU64 (n : Int) : Nat := (n % (2 : Int) ^ 64).toNat

/-- The `parsed.get("package").and_then(..metadata..).and_then(..timeout..)`
chain of `load_problem_timeout_settings`. -/
def timeoutSection (parsed : TomlValue) : Option TomlValue :=
  ((parsed.getKey "package").bind (fun pkg => pkg.getKey "metadata")).bind
    (fun meta => meta.getKey "timeout")

/-- Rust `load_problem_timeout_settings`.  `manifestExists` models
`cargo_toml_path.exists()`; `parseResult` models `toml::from_str`
(`none` = parse error).  Note that table values that are not integers are
silently skipped (`if let Some(timeout) = value.as_integer()`, no `else`). -/
def load_problem_timeout_settings (manifestExists : Bool)
    (parseResult : Option TomlValue) : Except String (List (String × Nat)) :=
  if manifestExists = false then
    .error "Cargo.toml not found in the current directory"
  else
    match parseResult with
    | none => .error "TOML parse error"
    | some parsed =>
      match timeoutSection parsed with
      | none => .error "Timeout section not found in Cargo.toml"
      | some (.table entries) =>
        .ok (entries.filterMap
          (fun kv => (kv.2.as_integer).map (fun n => (kv.1, intAsU64 n))))
      | some _ => .error "Timeout section is not a table"

/-! ## Execution supervision (`return_results`) -/

/-- Environment of one test-case execution: the outcomes of the external
effects that `return_results` performs for this case.  `polls` lists the
successive values of `start_time.elapsed().as_millis()` observed at the head
of the supervision loop; `finalTime` is the value measured right after the
loop (so it is at least every poll value that was actually observed).
`exitTime` is the elapsed time at which the child process exits (`none` =
never exits on its own). -/
structure CaseEnv where
  inputRead : Except String String
  expectedRead : Except String String
  spawnResult : Except String Unit
  stdinWrite : Except String Unit
  exitTime : Option Nat
  exitSuccess : Bool
  outputRead : Except String String
  polls : List Nat
  finalTime : Nat

/-- Outcome of the supervision loop of `return_results`. `timedOut` and
`failed` are the two `break Err(..)` paths; `propagate` is a `?` operator
firing inside the loop (`try_wait`, `wait_with_output`); `stuck` marks an
exhausted poll schedule (the real loop would keep polling). -/
inductive LoopResult where
  | ok (stdout : String)
  | timedOut
  | failed
  | propagate (msg : String)
  | stuck
deriving DecidableEq, Repr

/-- The poll-and-sleep supervision loop of `return_results`: at each poll
first compare elapsed time against the timeout (`break Err("Execution timed
out")`, after killing the child), then `try_wait`: if the child has exited,
`break` with `Ok(output)` on success or `Err("Execution failed")` otherwise;
if not, sleep and poll again. -/
def superviseLoop (timeout : Nat) (env : CaseEnv) : List Nat → LoopResult
  | [] => .stuck
  | t :: ts =>
    if timeout < t then .timedOut
    else
      match env.exitTime with
      | some te =>
        if te ≤ t then
          if env.exitSuccess then
            match env.outputRead with
            | .ok out => .ok out
            | .error e => .propagate e
          else .failed
        else superviseLoop timeout env ts
      | none => superviseLoop timeout env ts

/-- The child process is forcibly killed exactly on the timeout path of the
supervision loop (`let _ = child.kill()`). -/
def childKilled : LoopResult → Bool
  | .timedOut => true
  | _ => false

/-- One iteration of the `for (input_file, expected_output_file)` loop of
`return_results`: read both fixture files, spawn the child, write its stdin,
supervise it, then classify.  The outer `Option` is `none` when the model
cannot return (exhausted schedule); `Except.error` is a fired `?` operator
(the error propagates out of `return_results`); `Except.ok` carries the
`TestCaseResult` together with the `actual_output` string handed to
`display_details`. -/
def runCase (timeout : Nat) (name : String) (env : CaseEnv) :
    Option (Except String (TestCaseResult × String)) :=
  match env.inputRead with
  | .error e => some (.error e)
  | .ok _ =>
    match env.expectedRead with
    | .error e => some (.error e)
    | .ok expected =>
      match env.spawnResult with
      | .error e => some (.error e)
      | .ok _ =>
        match env.stdinWrite with
        | .error e => some (.error e)
        | .ok _ =>
          match superviseLoop timeout env env.polls with
          | .stuck => none
          | .propagate e => some (.error e)
          | .ok actual =>
            if rustTrim actual = rustTrim expected then
              some (.ok (⟨name, .AC, env.finalTime, none⟩, actual))
            else
              some (.ok (⟨name, .WA, env.finalTime, none⟩, actual))
          | .timedOut =>
            if timeout < env.finalTime then
              some (.ok (⟨name, .TLE, env.finalTime, none⟩, ""))
            else
              some (.ok (⟨name, .RE, env.finalTime,
                some "Execution timed out"⟩, ""))
          | .failed =>
            if timeout < env.finalTime then
              some (.ok (⟨name, .TLE, env.finalTime, none⟩, ""))
            else
              some (.ok (⟨name, .RE, env.finalTime,
                some "Execution failed"⟩, ""))

/-- The whole fixture loop of `return_results`, in order. -/
def runCases (timeout : Nat) :
    List (String × CaseEnv) →
      Option (Except String (List (TestCaseResult × String)))
  | [] => some (.ok [])
  | c :: rest =>
    match runCase timeout c.1 c.2 with
    | none => none
    | some (.error e) => some (.error e)
    | some (.ok pr) =>
      match runCases timeout rest with
      | none => none
      | some (.error e) => some (.error e)
      | some (.ok prs) => some (.ok (pr :: prs))

/-- Rust `get_execution_path`: `work_dir.join("target/debug/{problem}")`,
an error when the executable file does not exist. -/
def get_execution_path (executableExists : Bool) (work_dir problem_name :
    String) : Except String String :=
  if executableExists then .ok (work_dir ++ "/target/debug/" ++ problem_name)
  else
    .error ("Executable for problem \x27" ++ problem_name ++
      "\x27 not found at " ++ work_dir ++ "/target/debug/" ++ problem_name)

/-- Rust `return_results`.  After locating the executable it resolves the
timeout with `timeout_settings.get(problem_name).copied().unwrap()` — the
`unwrap` panics (`none` here) when the problem has no entry — then re-checks
executable existence (dead code: `get_execution_path` already verified it)
and runs every collected case. -/
def return_results (executableExists : Bool) (work_dir : String)
    (test_cases : List (String × CaseEnv)) (problem_name : String)
    (timeout_settings : List (String × Nat)) :
    Option (Except String (List (TestCaseResult × String))) :=
  match get_execution_path executableExists work_dir problem_name with
  | .error e => some (.error e)
  | .ok path =>
    match timeout_settings.lookup problem_name with
    | none => none
    | some timeout =>
      if executableExists = false then
        some (.error ("Executable does not exist: " ++ path))
      else runCases timeout test_cases

/-! ## Suite-level operation (`execute`) -/

/-- The final verdict computation of `execute`:
`results.iter().all(|res| res.status == TestStatus::AC)`. -/
def suiteVerdict (results : List TestCaseResult) :
    Except String Unit :=
  if results.all (fun r => r.status == TestStatus.AC) then .ok ()
  else .error "Some tests failed."

/-- Environment of one invocation of `execute`: existence of the problem
directory, outcome of `cargo build`, the listing of the `tests` directory,
the manifest, executable existence, and (via `envOf`, keyed by test-case
name) the execution environment of each collected case. -/
structure World where
  workDir : String
  problemName : String
  problemDirExists : Bool
  compileOk : Bool
  testsEntries : List DirEntry
  manifestExists : Bool
  parseResult : Option TomlValue
  executableExists : Bool
  envOf : String → CaseEnv

/-- The test cases that `execute` hands to `return_results`: the collected
pairs, each keyed by the input file's name. -/
def executeCases (w : World) : List (String × CaseEnv) :=
  (collect_test_cases w.testsEntries).1.map
    (fun p => (fileName p.1, w.envOf (fileName p.1)))

/-- Rust `execute`: find the problem directory, compile, collect fixtures,
load the timeout table, run all cases — note the `.unwrap()` on the result
of `return_results`, which turns any `Err` from it into a panic (`none`) —
then derive the suite verdict. -/
def execute (w : World) : Option (Except String Unit) :=
  if w.problemDirExists = false then
    some (.error ("Directory \x27" ++ w.problemName ++
      "\x27 does not exist"))
  else if w.compileOk = false then
    some (.error "Compilation failed")
  else
    match load_problem_timeout_settings w.manifestExists w.parseResult with
    | .error e => some (.error e)
    | .ok timeoutSettings =>
      match return_results w.executableExists w.workDir (executeCases w)
          w.problemName timeoutSettings with
      | none => none
      | some (.error _) => none
      | some (.ok results) => some (suiteVerdict (results.map Prod.fst))

/-! ## Concrete environments and worlds used to instantiate the theorems -/

/-- A run that exits successfully at 5 ms printing the expected output. -/
def okEnv : CaseEnv :=
  ⟨.ok "4 2\n", .ok "2\n", .ok (), .ok (), some 5, true, .ok "2\n", [0, 10], 12⟩

/-- A run that exits successfully but prints the wrong output. -/
def waEnv : CaseEnv :=
  ⟨.ok "4 2\n", .ok "0\n", .ok (), .ok (), some 5, true, .ok "2\n", [0, 10], 12⟩

/-- A run whose output matches the expected output up to surrounding
whitespace only. -/
def padEnv : CaseEnv :=
  ⟨.ok "4 2\n", .ok "2", .ok (), .ok (), some 5, true, .ok "  2\n", [0, 10], 12⟩

/-- A run whose child never exits; the first poll already exceeds a
2000 ms timeout. -/
def tleEnv : CaseEnv :=
  ⟨.ok "4 2\n", .ok "2\n", .ok (), .ok (), none, true, .ok "2\n", [2001], 2005⟩

/-- A run whose child exits with a non-success code at 5 ms. -/
def reEnv : CaseEnv :=
  ⟨.ok "4 0\n", .ok "2\n", .ok (), .ok (), some 5, false, .ok "", [0, 10], 12⟩

/-- A run whose child exits with a non-success code within an 8 ms timeout,
but whose final elapsed measurement lands beyond it. -/
def reLateEnv : CaseEnv :=
  ⟨.ok "4 0\n", .ok "2\n", .ok (), .ok (), some 5, false, .ok "", [0, 6], 12⟩

/-- A run whose spawn fails. -/
def spawnFailEnv : CaseEnv :=
  ⟨.ok "4 2\n", .ok "2\n", .error "spawn failed", .ok (), some 5, true,
    .ok "2\n", [0, 10], 12⟩

/-- A manifest whose timeout table maps problem `abc` to 2000 ms. -/
def acToml : TomlValue :=
  .table [("package", .table [("metadata", .table
    [("timeout", .table [("abc", .integer 2000)])])])]

/-- A manifest whose timeout table is empty. -/
def emptyTimeoutToml : TomlValue :=
  .table [("package", .table [("metadata", .table
    [("timeout", .table [])])])]

/-- A manifest whose timeout table holds a single non-integer value. -/
def badTimeoutToml : TomlValue :=
  .table [("package", .table [("metadata", .table
    [("timeout", .table [("a", .string "fast")])])])]

/-- A manifest whose timeout table mixes a non-integer and an integer
value. -/
def mixedTimeoutToml : TomlValue :=
  .table [("package", .table [("metadata", .table
    [("timeout", .table [("a", .string "fast"), ("b", .integer 3000)])])])]

/-- A `tests` directory holding one paired fixture. -/
def sampleEntries : List DirEntry :=
  [⟨"sample_1", some "in"⟩, ⟨"sample_1", some "out"⟩]

/-- A fully healthy invocation: directory and executable exist, the build
succeeds, the manifest maps `abc` to 2000 ms, one paired fixture whose run
is accepted. -/
def acWorld : World :=
  ⟨"w", "abc", true, true, sampleEntries, true, some acToml, true,
    fun _ => okEnv⟩

/-- Like `acWorld` but the manifest's timeout table has no entry for the
problem. -/
def c1World : World :=
  ⟨"w", "abc", true, true, sampleEntries, true, some emptyTimeoutToml, true,
    fun _ => okEnv⟩

/-- Like `acWorld` but the compiled executable is missing. -/
def noExecWorld : World :=
  ⟨"w", "abc", true, true, sampleEntries, true, some acToml, false,
    fun _ => okEnv⟩

/-- Like `acWorld` but the problem directory does not exist. -/
def noDirWorld : World :=
  ⟨"w", "abc", false, true, sampleEntries, true, some acToml, true,
    fun _ => okEnv⟩

/-- Like `acWorld` but the build fails. -/
def noCompileWorld : World :=
  ⟨"w", "abc", true, false, sampleEntries, true, some acToml, true,
    fun _ => okEnv⟩

/-- Like `acWorld` but the manifest file is missing. -/
def noManifestWorld : World :=
  ⟨"w", "abc", true, true, sampleEntries, false, some acToml, true,
    fun _ => okEnv⟩

/-- Like `acWorld` but the only input fixture is an orphan, so the suite is
empty. -/
def emptySuiteWorld : World :=
  ⟨"w", "abc", true, true, [⟨"sample_1", some "in"⟩], true, some acToml, true,
    fun _ => okEnv⟩

/-- A `tests` directory with one orphan input (`a.in`) and one paired
fixture (`b.in`/`b.out`). -/
def c8Entries : List DirEntry :=
  [⟨"a", some "in"⟩, ⟨"b", some "in"⟩, ⟨"b", some "out"⟩]

/-- The result produced for `reEnv` under a 2000 ms timeout. -/
def c10Result : TestCaseResult × String :=
  (⟨"sample_1.in", TestStatus.RE, 12, some "Execution failed"⟩, "")

/-! ## Helper lemmas -/

theorem status_beq_true_iff (s t : TestStatus) : (s == t) = true ↔ s = t := by
  cases s <;> cases t <;> decide

theorem suiteVerdict_ok_iff (rs : List TestCaseResult) :
    suiteVerdict rs = .ok () ↔ ∀ r ∈ rs, r.status = TestStatus.AC := by
  unfold suiteVerdict
  split
  case isTrue h =>
    simp only [List.all_eq_true, status_beq_true_iff] at h
    exact iff_of_true rfl h
  case isFalse h =>
    constructor
    · intro hc
      exact absurd hc (by simp)
    · intro hall
      exfalso
      apply h
      simp only [List.all_eq_true, status_beq_true_iff]
      exact hall

theorem suiteVerdict_eq_error (rs : List TestCaseResult)
    (h : ¬ ∀ r ∈ rs, r.status = TestStatus.AC) :
    suiteVerdict rs = .error "Some tests failed." := by
  unfold suiteVerdict
  split
  case isTrue hall =>
    exfalso
    apply h
    simp only [List.all_eq_true, status_beq_true_iff] at hall
    exact hall
  case isFalse => rfl

/-- The child has not yet exited at elapsed time `u`. -/
def notExitedBy (env : CaseEnv) (u : Nat) : Prop :=
  ∀ te, env.exitTime = some te → u < te

theorem superviseLoop_timedOut (timeout : Nat) (env : CaseEnv)
    (pre post : List Nat) (t : Nat) (ht : timeout < t)
    (hpre : ∀ u ∈ pre, u ≤ timeout ∧ notExitedBy env u) :
    superviseLoop timeout env (pre ++ t :: post) = .timedOut := by
  induction pre with
  | nil => simp [superviseLoop, ht]
  | cons u us ih =>
    have hu := hpre u (List.mem_cons_self u us)
    have hrest : ∀ v ∈ us, v ≤ timeout ∧ notExitedBy env v :=
      fun v hv => hpre v (List.mem_cons_of_mem u hv)
    have h1 : ¬ timeout < u := Nat.not_lt.mpr hu.1
    show superviseLoop timeout env (u :: (us ++ t :: post)) = .timedOut
    cases henv : env.exitTime with
    | none =>
      simp only [superviseLoop, henv, if_neg h1]
      exact ih hrest
    | some te =>
      have h2 : ¬ te ≤ u := Nat.not_le.mpr (hu.2 te henv)
      simp only [superviseLoop, henv, if_neg h1, if_neg h2]
      exact ih hrest

theorem superviseLoop_exit_ok (timeout : Nat) (env : CaseEnv)
    (pre post : List Nat) (t te : Nat) (actual : String)
    (hpre : ∀ u ∈ pre, u ≤ timeout ∧ notExitedBy env u)
    (ht : t ≤ timeout) (hte : env.exitTime = some te) (hle : te ≤ t)
    (hsucc : env.exitSuccess = true) (hout : env.outputRead = .ok actual) :
    superviseLoop timeout env (pre ++ t :: post) = .ok actual := by
  induction pre with
  | nil =>
    show superviseLoop timeout env (t :: post) = .ok actual
    simp only [superviseLoop, hte, hsucc, hout, if_neg (Nat.not_lt.mpr ht),
      if_pos hle, if_pos trivial]
  | cons u us ih =>
    have hu := hpre u (List.mem_cons_self u us)
    have hrest : ∀ v ∈ us, v ≤ timeout ∧ notExitedBy env v :=
      fun v hv => hpre v (List.mem_cons_of_mem u hv)
    show superviseLoop timeout env (u :: (us ++ t :: post)) = .ok actual
    simp only [superviseLoop, hte, if_neg (Nat.not_lt.mpr hu.1),
      if_neg (Nat.not_le.mpr (hu.2 te hte))]
    exact ih hrest

theorem superviseLoop_exit_failed (timeout : Nat) (env : CaseEnv)
    (pre post : List Nat) (t te : Nat)
    (hpre : ∀ u ∈ pre, u ≤ timeout ∧ notExitedBy env u)
    (ht : t ≤ timeout) (hte : env.exitTime = some te) (hle : te ≤ t)
    (hfail : env.exitSuccess = false) :
    superviseLoop timeout env (pre ++ t :: post) = .failed := by
  induction pre with
  | nil =>
    show superviseLoop timeout env (t :: post) = .failed
    simp only [superviseLoop, hte, hfail, if_neg (Nat.not_lt.mpr ht),
      if_pos hle, Bool.false_eq_true, if_neg (by simp : ¬ False)]
  | cons u us ih =>
    have hu := hpre u (List.mem_cons_self u us)
    have hrest : ∀ v ∈ us, v ≤ timeout ∧ notExitedBy env v :=
      fun v hv => hpre v (List.mem_cons_of_mem u hv)
    show superviseLoop timeout env (u :: (us ++ t :: post)) = .failed
    simp only [superviseLoop, hte, if_neg (Nat.not_lt.mpr hu.1),
      if_neg (Nat.not_le.mpr (hu.2 te hte))]
    exact ih hrest

theorem dropWhile_append_of_forall {α : Type} (p : α → Bool)
    (l₁ l₂ : List α) (h : ∀ a ∈ l₁, p a = true) :
    (l₁ ++ l₂).dropWhile p = l₂.dropWhile p := by
  induction l₁ with
  | nil => rfl
  | cons a as ih =>
    have ha := h a (List.mem_cons_self a as)
    show ((a :: (as ++ l₂)).dropWhile p) = l₂.dropWhile p
    rw [List.dropWhile_cons_of_pos ha]
    exact ih (fun b hb => h b (List.mem_cons_of_mem a hb))

theorem dropWhile_append_ne_nil {α : Type} (p : α → Bool)
    (l₁ l₂ : List α) (h : l₁.dropWhile p ≠ []) :
    (l₁ ++ l₂).dropWhile p = l₁.dropWhile p ++ l₂ := by
  induction l₁ with
  | nil => simp at h
  | cons a as ih =>
    by_cases hpa : p a
    · rw [List.dropWhile_cons_of_pos hpa] at h
      show ((a :: (as ++ l₂)).dropWhile p) = _
      rw [List.dropWhile_cons_of_pos hpa, List.dropWhile_cons_of_pos hpa]
      exact ih h
    · show ((a :: (as ++ l₂)).dropWhile p) = _
      rw [List.dropWhile_cons_of_neg hpa, List.dropWhile_cons_of_neg hpa]
      rfl

theorem rustTrim_mk_pad (p m s : List Char)
    (hp : ∀ c ∈ p, isRustWhitespace c = true)
    (hs : ∀ c ∈ s, isRustWhitespace c = true) :
    rustTrim (String.mk (p ++ m ++ s)) = rustTrim (String.mk m) := by
  show String.mk _ = String.mk _
  rw [List.append_assoc]
  rw [show ((String.mk (p ++ (m ++ s))).data) = p ++ (m ++ s) from rfl]
  rw [show ((String.mk m).data) = m from rfl]
  rw [dropWhile_append_of_forall _ p _ hp]
  by_cases hnil : m.dropWhile isRustWhitespace = []
  · rw [dropWhile_append_of_forall _ m s (List.dropWhile_eq_nil_iff.mp hnil),
      List.dropWhile_eq_nil_iff.mpr hs, hnil]
  · rw [dropWhile_append_ne_nil _ m s hnil, List.reverse_append,
      dropWhile_append_of_forall _ s.reverse _
        (fun c hc => hs c (List.mem_reverse.mp hc))]

theorem containsEntry_true_iff (all : List DirEntry) (e : DirEntry) :
    containsEntry all e = true ↔ e ∈ all := by
  simp [containsEntry, List.any_eq_true]

theorem collectGo_cons (all : List DirEntry) (a : DirEntry)
    (as : List DirEntry) :
    collectGo all (a :: as) =
      (if a.ext.getD "" = "in" then
        (if containsEntry all ⟨a.stem, some "out"⟩ then
          ((a, ⟨a.stem, some "out"⟩) :: (collectGo all as).1,
            (collectGo all as).2)
        else
          ((collectGo all as).1,
            ("Warning: No matching output file for " ++ fileName a) ::
              (collectGo all as).2))
      else collectGo all as) := rfl

theorem collectGo_mem_fst_iff (all l : List DirEntry)
    (x : DirEntry × DirEntry) :
    x ∈ (collectGo all l).1 ↔
      x.1 ∈ l ∧ x.1.ext.getD "" = "in" ∧
        x.2 = (⟨x.1.stem, some "out"⟩ : DirEntry) ∧
        containsEntry all ⟨x.1.stem, some "out"⟩ = true := by
  obtain ⟨x1, x2⟩ := x
  induction l with
  | nil => simp [collectGo]
  | cons a as ih =>
    rw [collectGo_cons]
    by_cases h1 : a.ext.getD "" = "in"
    · by_cases h2 : containsEntry all ⟨a.stem, some "out"⟩ = true
      · simp only [h1, h2, if_true, ite_true, List.mem_cons]
        constructor
        · rintro (hx | hx)
          · obtain ⟨ha, hb⟩ := Prod.mk.injEq .. ▸ hx
            refine ⟨Or.inl ha, ?_, ?_, ?_⟩ <;> subst ha <;> simp [h1, h2, hb]
          · obtain ⟨hm, hi, ho, hc⟩ := ih.mp hx
            exact ⟨Or.inr hm, hi, ho, hc⟩
        · rintro ⟨(h | hm), hi, ho, hc⟩
          · subst h
            subst ho
            exact Or.inl rfl
          · exact Or.inr (ih.mpr ⟨hm, hi, ho, hc⟩)
      · simp only [h1, h2, if_true, ite_true, if_false, ite_false,
          Bool.false_eq_true, List.mem_cons]
        rw [ih]
        constructor
        · rintro ⟨hm, hi, ho, hc⟩
          exact ⟨Or.inr hm, hi, ho, hc⟩
        · rintro ⟨(h | hm), hi, ho, hc⟩
          · subst h
            exact absurd hc h2
          · exact ⟨hm, hi, ho, hc⟩
    · simp only [h1, if_false, ite_false, List.mem_cons]
      rw [ih]
      constructor
      · rintro ⟨hm, hi, ho, hc⟩
        exact ⟨Or.inr hm, hi, ho, hc⟩
      · rintro ⟨(h | hm), hi, ho, hc⟩
        · subst h
          exact absurd hi h1
        · exact ⟨hm, hi, ho, hc⟩

theorem collectGo_mem_snd_iff (all l : List DirEntry) (w : String) :
    w ∈ (collectGo all l).2 ↔
      ∃ e ∈ l, e.ext.getD "" = "in" ∧
        containsEntry all ⟨e.stem, some "out"⟩ = false ∧
        w = "Warning: No matching output file for " ++ fileName e := by
  induction l with
  | nil => simp [collectGo]
  | cons a as ih =>
    rw [collectGo_cons]
    by_cases h1 : a.ext.getD "" = "in"
    · by_cases h2 : containsEntry all ⟨a.stem, some "out"⟩ = true
      · simp only [h1, h2, if_true, ite_true]
        rw [ih]
        constructor
        · rintro ⟨e, hm, hi, hc, hw⟩
          exact ⟨e, List.mem_cons_of_mem a hm, hi, hc, hw⟩
        · rintro ⟨e, hm, hi, hc, hw⟩
          rcases List.mem_cons.mp hm with h | h
          · subst h
            exact absurd h2 (by simp [hc])
          · exact ⟨e, h, hi, hc, hw⟩
      · have h2f : containsEntry all ⟨a.stem, some "out"⟩ = false := by
          cases hv : containsEntry all ⟨a.stem, some "out"⟩
          · rfl
          · exact absurd hv h2
        simp only [h1, h2f, if_true, ite_true, Bool.false_eq_true,
          if_false, ite_false, List.mem_cons]
        rw [ih]
        constructor
        · rintro (hw | ⟨e, hm, hi, hc, hw⟩)
          · exact ⟨a, Or.inl rfl, h1, h2f, hw⟩
          · exact ⟨e, Or.inr hm, hi, hc, hw⟩
        · rintro ⟨e, (h | hm), hi, hc, hw⟩
          · subst h
            exact Or.inl hw
          · exact Or.inr ⟨e, hm, hi, hc, hw⟩
    · simp only [h1, if_false, ite_false]
      rw [ih]
      constructor
      · rintro ⟨e, hm, hi, hc, hw⟩
        exact ⟨e, List.mem_cons_of_mem a hm, hi, hc, hw⟩
      · rintro ⟨e, hm, hi, hc, hw⟩
        rcases List.mem_cons.mp hm with h | h
        · subst h
          exact absurd hi h1
        · exact ⟨e, h, hi, hc, hw⟩

theorem runCase_ok_invariant (timeout : Nat) (name : String) (env : CaseEnv)
    (p : TestCaseResult × String)
    (h : runCase timeout name env = some (.ok p)) :
    (p.1.error_message.isSome = true ↔ p.1.status = TestStatus.RE) ∧
    ((p.1.status = TestStatus.RE ∨ p.1.status = TestStatus.TLE) →
      p.2 = "") := by
  obtain ⟨r, a⟩ := p
  unfold runCase at h
  repeat' split at h
  all_goals simp only [Option.some.injEq, Except.ok.injEq, Prod.mk.injEq,
    reduceCtorEq] at h
  all_goals
    obtain ⟨h1, h2⟩ := h
    subst h1
    subst h2
    exact ⟨by simp, by simp⟩

theorem runCases_ok_invariant (timeout : Nat)
    (cs : List (String × CaseEnv))
    (results : List (TestCaseResult × String))
    (h : runCases timeout cs = some (.ok results)) :
    ∀ p ∈ results,
      (p.1.error_message.isSome = true ↔ p.1.status = TestStatus.RE) ∧
      ((p.1.status = TestStatus.RE ∨ p.1.status = TestStatus.TLE) →
        p.2 = "") := by
  induction cs generalizing results with
  | nil =>
    intro p hp
    simp only [runCases, Option.some.injEq, Except.ok.injEq] at h
    subst h
    exact absurd hp (by simp)
  | cons c rest ih =>
    intro p hp
    unfold runCases at h
    split at h
    · exact absurd h (by simp)
    · exact absurd h (by simp)
    next pr hpr =>
      split at h
      · exact absurd h (by simp)
      · exact absurd h (by simp)
      next prs hprs =>
        simp only [Option.some.injEq, Except.ok.injEq] at h
        subst h
        rcases List.mem_cons.mp hp with h | h
        · subst h
          exact runCase_ok_invariant timeout c.1 c.2 p hpr
        · exact ih prs hprs p h

/-! ## Claim C1 -/

/-- C1, counterexample: in a world that is healthy in every respect except
that the manifest's timeout table has no entry for the problem, the run does
not fall back to a 2000 ms default and proceed — `execute` aborts abnormally
(`none`, the `unwrap` panic), and so does `return_results` itself when
handed an empty timeout table. -/
theorem c1_no_default_counterexample :
    execute c1World = none ∧
    return_results true "w" [("sample_1.in", okEnv)] "abc" [] = none :=
  ⟨rfl, rfl⟩

/-- C1, amended: for every problem name that has no entry in the parsed
timeout table, `return_results` panics at the
`timeout_settings.get(problem_name).copied().unwrap()` lookup (modelled as
`none`): no default timeout is applied and no test case is executed. -/
theorem c1_absent_timeout_panics (work_dir problem : String)
    (cases : List (String × CaseEnv)) (settings : List (String × Nat))
    (h : settings.lookup problem = none) :
    return_results true work_dir cases problem settings = none := by
  unfold return_results get_execution_path
  simp [h]

/-- Witness for `c1_absent_timeout_panics` at a concrete input. -/
theorem c1_absent_timeout_panics_witness :
    (([] : List (String × Nat)).lookup "abc" = none) ∧
    return_results true "w" [("sample_1.in", okEnv)] "abc" [] = none :=
  ⟨rfl, c1_absent_timeout_panics "w" "abc" [("sample_1.in", okEnv)] [] rfl⟩

/-! ## Claim C2 -/

/-- C2: for every completed run (one where `return_results` returns `Ok`
with the produced result list), the suite-level `execute` returns `Ok` if
and only if every produced `TestCaseResult` has status `AC`; if at least one
result has a status other than `AC` (i.e. `WA`, `TLE` or `RE`), `execute`
returns the fixed error "Some tests failed.", which names no individual
case. -/
theorem c2_suite_verdict (w : World) (ts : List (String × Nat))
    (results : List (TestCaseResult × String))
    (hdir : w.problemDirExists = true) (hcomp : w.compileOk = true)
    (hload : load_problem_timeout_settings w.manifestExists w.parseResult =
      .ok ts)
    (hrun : return_results w.executableExists w.workDir (executeCases w)
      w.problemName ts = some (.ok results)) :
    ((execute w = some (.ok ())) ↔
      ∀ p ∈ results, p.1.status = TestStatus.AC) ∧
    ((∃ p ∈ results, p.1.status ≠ TestStatus.AC) →
      execute w = some (.error "Some tests failed.")) := by
  have hx : execute w = some (suiteVerdict (results.map Prod.fst)) := by
    unfold execute
    simp [hdir, hcomp, hload, hrun]
  constructor
  · rw [hx]
    constructor
    · intro h
      have h2 : suiteVerdict (results.map Prod.fst) = .ok () :=
        Option.some.inj h
      have h3 := (suiteVerdict_ok_iff _).mp h2
      intro q hq
      exact h3 q.1 (List.mem_map_of_mem Prod.fst hq)
    · intro hall
      have h2 : suiteVerdict (results.map Prod.fst) = .ok () := by
        apply (suiteVerdict_ok_iff _).mpr
        intro r hr
        rcases List.mem_map.mp hr with ⟨q, hq, rfl⟩
        exact hall q hq
      rw [h2]
  · rintro ⟨q, hq, hne⟩
    rw [hx, suiteVerdict_eq_error]
    intro hall
    exact hne (hall q.1 (List.mem_map_of_mem Prod.fst hq))

/-- Witness for `c2_suite_verdict` at a concrete accepted run. -/
theorem c2_suite_verdict_witness : execute acWorld = some (Except.ok ()) := by
  have h := c2_suite_verdict acWorld [("abc", 2000)]
    [(⟨"sample_1.in", TestStatus.AC, 12, none⟩, "2\n")] rfl rfl rfl rfl
  exact h.1.mpr (by simp)

/-- Discharge helper: a single poll at elapsed 0 observes neither a timeout
nor an exit when the child exits strictly later. -/
theorem preZeroOk (timeout : Nat) (env : CaseEnv) (te : Nat)
    (hte : env.exitTime = some te) (hpos : 0 < te) :
    ∀ u ∈ ([0] : List Nat), u ≤ timeout ∧ notExitedBy env u := by
  intro u hu
  rw [List.mem_singleton] at hu
  subst hu
  refine ⟨Nat.zero_le _, ?_⟩
  intro te2 hte2
  rw [hte] at hte2
  have := Option.some.inj hte2
  omega

/-! ## Claim C3 -/

/-- C3: if the child has not exited at every poll until one where the
elapsed time exceeds the resolved timeout, the supervisor kills the child
(`childKilled`), classifies the case `TLE` with the measured elapsed time
recorded, and the fixture loop continues with the remaining cases — whatever
the child's exit status or output would have been (`env.exitSuccess` and
`env.outputRead` are unconstrained). -/
theorem c3_timeout_forces_tle (timeout : Nat) (name : String) (env : CaseEnv)
    (i e : String)
    (hin : env.inputRead = .ok i) (hexp : env.expectedRead = .ok e)
    (hsp : env.spawnResult = .ok ()) (hwr : env.stdinWrite = .ok ())
    (pre post : List Nat) (t : Nat)
    (hpolls : env.polls = pre ++ t :: post) (ht : timeout < t)
    (hpre : ∀ u ∈ pre, u ≤ timeout ∧ notExitedBy env u)
    (hfin : t ≤ env.finalTime) :
    childKilled (superviseLoop timeout env env.polls) = true ∧
    runCase timeout name env =
      some (.ok (⟨name, .TLE, env.finalTime, none⟩, "")) ∧
    ∀ rest rs, runCases timeout rest = some (.ok rs) →
      runCases timeout ((name, env) :: rest) =
        some (.ok ((⟨name, .TLE, env.finalTime, none⟩, "") :: rs)) := by
  have hloop : superviseLoop timeout env env.polls = .timedOut := by
    rw [hpolls]
    exact superviseLoop_timedOut timeout env pre post t ht hpre
  have htle : timeout < env.finalTime := lt_of_lt_of_le ht hfin
  have hcase : runCase timeout name env =
      some (.ok (⟨name, .TLE, env.finalTime, none⟩, "")) := by
    simp only [runCase, hin, hexp, hsp, hwr, hloop, if_pos htle]
  refine ⟨by rw [hloop]; rfl, hcase, ?_⟩
  intro rest rs hrest
  simp only [runCases, hcase, hrest]

/-- Witness for `c3_timeout_forces_tle` at a concrete input. -/
theorem c3_timeout_forces_tle_witness :
    childKilled (superviseLoop 2000 tleEnv tleEnv.polls) = true ∧
    runCase 2000 "sample_1.in" tleEnv =
      some (Except.ok (⟨"sample_1.in", TestStatus.TLE, 2005, none⟩, "")) ∧
    runCases 2000 [("sample_1.in", tleEnv)] =
      some (Except.ok [(⟨"sample_1.in", TestStatus.TLE, 2005, none⟩, "")]) := by
  have h := c3_timeout_forces_tle 2000 "sample_1.in" tleEnv "4 2\n" "2\n"
    rfl rfl rfl rfl [] [] 2001 rfl (by decide) (by simp) (by decide)
  exact ⟨h.1, h.2.1, h.2.2 [] [] rfl⟩

/-! ## Claim C4 -/

/-- C4, counterexample: a spawn failure is NOT classified `RE`.  The `?`
operator on `Command::spawn` propagates the error out of `return_results`
(here: `some (Except.error ..)`, not an `Ok` list containing an `RE`
result). -/
theorem c4_spawn_error_counterexample :
    runCase 2000 "sample_1.in" spawnFailEnv =
      some (Except.error "spawn failed") ∧
    return_results true "w" [("sample_1.in", spawnFailEnv)] "abc"
      [("abc", 2000)] = some (Except.error "spawn failed") :=
  ⟨rfl, rfl⟩

/-- C4, amended: a child that exits with a non-success code, observed within
the timeout, is classified `RE` with the error text "Execution failed"
captured, provided the measured elapsed time does not exceed the timeout —
if it does, the timeout takes precedence and the case is classified `TLE`.
Spawn/write/read errors are not classified at all: they propagate as
suite-level errors (see the counterexample). -/
theorem c4_nonzero_exit_re (timeout : Nat) (name : String) (env : CaseEnv)
    (i e : String)
    (hin : env.inputRead = .ok i) (hexp : env.expectedRead = .ok e)
    (hsp : env.spawnResult = .ok ()) (hwr : env.stdinWrite = .ok ())
    (pre post : List Nat) (t te : Nat)
    (hpolls : env.polls = pre ++ t :: post)
    (hpre : ∀ u ∈ pre, u ≤ timeout ∧ notExitedBy env u)
    (ht : t ≤ timeout) (hte : env.exitTime = some te) (hle : te ≤ t)
    (hfail : env.exitSuccess = false) :
    (env.finalTime ≤ timeout →
      runCase timeout name env =
        some (.ok (⟨name, .RE, env.finalTime,
          some "Execution failed"⟩, ""))) ∧
    (timeout < env.finalTime →
      runCase timeout name env =
        some (.ok (⟨name, .TLE, env.finalTime, none⟩, ""))) := by
  have hloop : superviseLoop timeout env env.polls = .failed := by
    rw [hpolls]
    exact superviseLoop_exit_failed timeout env pre post t te hpre ht hte hle
      hfail
  constructor
  · intro hfin
    simp only [runCase, hin, hexp, hsp, hwr, hloop,
      if_neg (Nat.not_lt.mpr hfin)]
  · intro hfin
    simp only [runCase, hin, hexp, hsp, hwr, hloop, if_pos hfin]

/-- Witness for `c4_nonzero_exit_re` at concrete inputs for both the `RE`
and the timeout-precedence branch. -/
theorem c4_nonzero_exit_re_witness :
    runCase 2000 "sample_1.in" reEnv =
      some (Except.ok (⟨"sample_1.in", TestStatus.RE, 12,
        some "Execution failed"⟩, "")) ∧
    runCase 8 "sample_1.in" reLateEnv =
      some (Except.ok (⟨"sample_1.in", TestStatus.TLE, 12, none⟩, "")) := by
  have h1 := c4_nonzero_exit_re 2000 "sample_1.in" reEnv "4 0\n" "2\n"
    rfl rfl rfl rfl [0] [] 10 5 rfl (preZeroOk 2000 reEnv 5 rfl (by decide))
    (by decide) rfl (by decide) rfl
  have h2 := c4_nonzero_exit_re 8 "sample_1.in" reLateEnv "4 0\n" "2\n"
    rfl rfl rfl rfl [0] [] 6 5 rfl (preZeroOk 8 reLateEnv 5 rfl (by decide))
    (by decide) rfl (by decide) rfl
  exact ⟨h1.1 (by decide), h2.2 (by decide)⟩

/-! ## Claim C5 -/

/-- C5: when the child exits successfully at a poll within the timeout, the
case is classified by trimming surrounding whitespace from both the actual
and the expected output and comparing exactly: equal trims yield `AC`,
unequal trims yield `WA`; in particular, outputs differing only in leading
and trailing whitespace around a common core yield `AC`. -/
theorem c5_trim_compare (timeout : Nat) (name : String) (env : CaseEnv)
    (i e : String)
    (hin : env.inputRead = .ok i) (hexp : env.expectedRead = .ok e)
    (hsp : env.spawnResult = .ok ()) (hwr : env.stdinWrite = .ok ())
    (pre post : List Nat) (t te : Nat)
    (hpolls : env.polls = pre ++ t :: post)
    (hpre : ∀ u ∈ pre, u ≤ timeout ∧ notExitedBy env u)
    (ht : t ≤ timeout) (hte : env.exitTime = some te) (hle : te ≤ t)
    (hsucc : env.exitSuccess = true) (actual : String)
    (hout : env.outputRead = .ok actual) :
    (rustTrim actual = rustTrim e →
      runCase timeout name env =
        some (.ok (⟨name, .AC, env.finalTime, none⟩, actual))) ∧
    (rustTrim actual ≠ rustTrim e →
      runCase timeout name env =
        some (.ok (⟨name, .WA, env.finalTime, none⟩, actual))) ∧
    (∀ p₁ s₁ p₂ s₂ core : List Char,
      (∀ c ∈ p₁, isRustWhitespace c = true) →
      (∀ c ∈ s₁, isRustWhitespace c = true) →
      (∀ c ∈ p₂, isRustWhitespace c = true) →
      (∀ c ∈ s₂, isRustWhitespace c = true) →
      actual = String.mk (p₁ ++ core ++ s₁) →
      e = String.mk (p₂ ++ core ++ s₂) →
      runCase timeout name env =
        some (.ok (⟨name, .AC, env.finalTime, none⟩, actual))) := by
  have hloop : superviseLoop timeout env env.polls = .ok actual := by
    rw [hpolls]
    exact superviseLoop_exit_ok timeout env pre post t te actual hpre ht hte
      hle hsucc hout
  have hAC : rustTrim actual = rustTrim e →
      runCase timeout name env =
        some (.ok (⟨name, .AC, env.finalTime, none⟩, actual)) := by
    intro hq
    simp only [runCase, hin, hexp, hsp, hwr, hloop, if_pos hq]
  refine ⟨hAC, ?_, ?_⟩
  · intro hq
    simp only [runCase, hin, hexp, hsp, hwr, hloop, if_neg hq]
  · intro p₁ s₁ p₂ s₂ core hp₁ hs₁ hp₂ hs₂ hac hec
    apply hAC
    rw [hac, hec, rustTrim_mk_pad p₁ core s₁ hp₁ hs₁,
      rustTrim_mk_pad p₂ core s₂ hp₂ hs₂]

/-- Witness for `c5_trim_compare` at concrete inputs covering the `AC`,
`WA` and whitespace-padding branches. -/
theorem c5_trim_compare_witness :
    runCase 2000 "sample_1.in" okEnv =
      some (Except.ok (⟨"sample_1.in", TestStatus.AC, 12, none⟩, "2\n")) ∧
    runCase 2000 "sample_1.in" waEnv =
      some (Except.ok (⟨"sample_1.in", TestStatus.WA, 12, none⟩, "2\n")) ∧
    runCase 2000 "sample_1.in" padEnv =
      some (Except.ok (⟨"sample_1.in", TestStatus.AC, 12, none⟩, "  2\n")) := by
  have h1 := c5_trim_compare 2000 "sample_1.in" okEnv "4 2\n" "2\n"
    rfl rfl rfl rfl [0] [] 10 5 rfl (preZeroOk 2000 okEnv 5 rfl (by decide))
    (by decide) rfl (by decide) rfl "2\n" rfl
  have h2 := c5_trim_compare 2000 "sample_1.in" waEnv "4 2\n" "0\n"
    rfl rfl rfl rfl [0] [] 10 5 rfl (preZeroOk 2000 waEnv 5 rfl (by decide))
    (by decide) rfl (by decide) rfl "2\n" rfl
  have h3 := c5_trim_compare 2000 "sample_1.in" padEnv "4 2\n" "2"
    rfl rfl rfl rfl [0] [] 10 5 rfl (preZeroOk 2000 padEnv 5 rfl (by decide))
    (by decide) rfl (by decide) rfl "  2\n" rfl
  refine ⟨h1.1 rfl, h2.2.1 (by decide), ?_⟩
  exact h3.2.2 [' ', ' '] ['\n'] [] [] ['2'] (by decide) (by decide)
    (by decide) (by decide) (by decide) (by decide)

/-! ## Claim C6 -/

/-- C6, counterexample: in a world where the executable is missing (and
everything else is healthy), the fatal condition is NOT surfaced as a
returned error value — `execute` unwraps the `Err` from `return_results`
and aborts abnormally (`none`, the panic). -/
theorem c6_exec_not_found_panics_counterexample : execute noExecWorld = none :=
  rfl

/-- C6, amended: a missing problem directory, a failed build, a missing
manifest, and any timeout-resolver failure each abort the run before any
test case executes and are surfaced as a returned suite-level error value;
a missing executable also aborts before any case executes, but it causes a
panic (the `.unwrap()` on `return_results`), not a returned error value.
The conclusions hold for every `World`, so none of these outcomes depends
on the per-case environments. -/
theorem c6_fatal_conditions (w : World) :
    (w.problemDirExists = false →
      execute w = some (.error ("Directory \x27" ++ w.problemName ++
        "\x27 does not exist"))) ∧
    (w.problemDirExists = true → w.compileOk = false →
      execute w = some (.error "Compilation failed")) ∧
    (w.problemDirExists = true → w.compileOk = true →
      w.manifestExists = false →
      execute w =
        some (.error "Cargo.toml not found in the current directory")) ∧
    (∀ msg, w.problemDirExists = true → w.compileOk = true →
      load_problem_timeout_settings w.manifestExists w.parseResult =
        .error msg →
      execute w = some (.error msg)) ∧
    (∀ ts, w.problemDirExists = true → w.compileOk = true →
      load_problem_timeout_settings w.manifestExists w.parseResult =
        .ok ts →
      w.executableExists = false →
      execute w = none) := by
  refine ⟨?_, ?_, ?_, ?_, ?_⟩
  · intro h
    simp [execute, h]
  · intro h1 h2
    simp [execute, h1, h2]
  · intro h1 h2 h3
    simp [execute, h1, h2, load_problem_timeout_settings, h3]
  · intro msg h1 h2 h3
    simp [execute, h1, h2, h3]
  · intro ts h1 h2 h3 h4
    simp [execute, h1, h2, h3, return_results, get_execution_path, h4]

/-- Witness for `c6_fatal_conditions` at concrete worlds, one per fatal
condition. -/
theorem c6_fatal_conditions_witness :
    execute noDirWorld = some (Except.error ("Directory \x27" ++
      noDirWorld.problemName ++ "\x27 does not exist")) ∧
    execute noCompileWorld = some (Except.error "Compilation failed") ∧
    execute noManifestWorld =
      some (Except.error "Cargo.toml not found in the current directory") ∧
    execute noExecWorld = none :=
  ⟨(c6_fatal_conditions noDirWorld).1 rfl,
    (c6_fatal_conditions noCompileWorld).2.1 rfl rfl,
    (c6_fatal_conditions noManifestWorld).2.2.1 rfl rfl rfl,
    (c6_fatal_conditions noExecWorld).2.2.2.2 [("abc", 2000)] rfl rfl rfl rfl⟩

/-! ## Claim C7 -/

/-- C7, counterexample: a metadata timeout section that is a table but not a
table of integers does NOT make the resolver return an error — non-integer
values are silently skipped: an all-string table yields `Ok` with the empty
mapping, and a mixed table yields `Ok` with only the integer entries. -/
theorem c7_non_integer_skipped_counterexample :
    load_problem_timeout_settings true (some badTimeoutToml) = .ok [] ∧
    load_problem_timeout_settings true (some mixedTimeoutToml) =
      .ok [("b", 3000)] :=
  ⟨rfl, rfl⟩

/-- C7, amended: the resolver errors when the manifest file does not exist,
when the manifest cannot be parsed, when the metadata timeout section is
missing, or when that section is not a table; given a table it returns the
mapping from each key whose value is an integer to that value cast to
`u64`, silently skipping non-integer values instead of erroring — so for a
well-formed table of integers it returns every key's integer millisecond
value. -/
theorem c7_timeout_resolver (manifestExists : Bool) (pr : Option TomlValue) :
    (manifestExists = false →
      load_problem_timeout_settings manifestExists pr =
        .error "Cargo.toml not found in the current directory") ∧
    (manifestExists = true → pr = none →
      load_problem_timeout_settings manifestExists pr =
        .error "TOML parse error") ∧
    (∀ parsed, manifestExists = true → pr = some parsed →
      timeoutSection parsed = none →
      load_problem_timeout_settings manifestExists pr =
        .error "Timeout section not found in Cargo.toml") ∧
    (∀ parsed v, manifestExists = true → pr = some parsed →
      timeoutSection parsed = some v → (∀ es, v ≠ .table es) →
      load_problem_timeout_settings manifestExists pr =
        .error "Timeout section is not a table") ∧
    (∀ parsed es, manifestExists = true → pr = some parsed →
      timeoutSection parsed = some (.table es) →
      load_problem_timeout_settings manifestExists pr =
        .ok (es.filterMap
          (fun kv => (kv.2.as_integer).map (fun n => (kv.1, intAsU64 n))))) ∧
    (∀ parsed (kvs : List (String × Int)), manifestExists = true →
      pr = some parsed →
      timeoutSection parsed =
        some (.table (kvs.map (fun kn => (kn.1, TomlValue.integer kn.2)))) →
      load_problem_timeout_settings manifestExists pr =
        .ok (kvs.map (fun kn => (kn.1, intAsU64 kn.2)))) := by
  refine ⟨?_, ?_, ?_, ?_, ?_, ?_⟩
  · intro h
    simp [load_problem_timeout_settings, h]
  · intro h1 h2
    subst h2
    simp [load_problem_timeout_settings, h1]
  · intro parsed h1 h2 h3
    subst h2
    simp [load_problem_timeout_settings, h1, h3]
  · intro parsed v h1 h2 h3 hnv
    subst h2
    cases v with
    | table es => exact absurd rfl (hnv es)
    | integer n => simp [load_problem_timeout_settings, h1, h3]
    | string s => simp [load_problem_timeout_settings, h1, h3]
    | boolean b => simp [load_problem_timeout_settings, h1, h3]
    | array l => simp [load_problem_timeout_settings, h1, h3]
  · intro parsed es h1 h2 h3
    subst h2
    simp [load_problem_timeout_settings, h1, h3]
  · intro parsed kvs h1 h2 h3
    subst h2
    simp only [load_problem_timeout_settings, h1, h3]
    rw [if_neg (by simp)]
    rw [List.filterMap_map]
    congr 1
    rw [List.filterMap_eq_map_iff_forall_eq_some.mpr ?_]
    intro kn _
    rfl

/-- Witness for `c7_timeout_resolver` at concrete inputs, one per branch. -/
theorem c7_timeout_resolver_witness :
    load_problem_timeout_settings false (some acToml) =
      .error "Cargo.toml not found in the current directory" ∧
    load_problem_timeout_settings true none = .error "TOML parse error" ∧
    load_problem_timeout_settings true (some (.table [])) =
      .error "Timeout section not found in Cargo.toml" ∧
    load_problem_timeout_settings true (some (.table [("package", .table
      [("metadata", .table [("timeout", .integer 7)])])])) =
      .error "Timeout section is not a table" ∧
    load_problem_timeout_settings true (some acToml) =
      .ok [("abc", intAsU64 2000)] :=
  ⟨(c7_timeout_resolver false (some acToml)).1 rfl,
    (c7_timeout_resolver true none).2.1 rfl rfl,
    (c7_timeout_resolver true (some (.table []))).2.2.1 (.table []) rfl rfl
      rfl,
    (c7_timeout_resolver true _).2.2.2.1 _ (.integer 7) rfl rfl rfl
      (fun es h => by cases h),
    (c7_timeout_resolver true (some acToml)).2.2.2.2.2 acToml
      [("abc", 2000)] rfl rfl rfl⟩

/-! ## Claim C8 -/

/-- C8: an input fixture whose sibling output file is absent is excluded
from the collected pairs and produces a non-fatal warning; an input fixture
whose sibling output file is present is collected as a pair. -/
theorem c8_fixture_pairing (entries : List DirEntry) (e : DirEntry)
    (he : e ∈ entries) (hin : e.ext = some "in") :
    ((⟨e.stem, some "out"⟩ : DirEntry) ∉ entries →
      (∀ o, (e, o) ∉ (collect_test_cases entries).1) ∧
      ("Warning: No matching output file for " ++ fileName e) ∈
        (collect_test_cases entries).2) ∧
    ((⟨e.stem, some "out"⟩ : DirEntry) ∈ entries →
      (e, (⟨e.stem, some "out"⟩ : DirEntry)) ∈
        (collect_test_cases entries).1) := by
  unfold collect_test_cases
  have hgd : e.ext.getD "" = "in" := by rw [hin]; rfl
  constructor
  · intro hno
    have hcf : containsEntry entries ⟨e.stem, some "out"⟩ = false := by
      cases hv : containsEntry entries ⟨e.stem, some "out"⟩
      · rfl
      · exact absurd ((containsEntry_true_iff _ _).mp hv) hno
    constructor
    · intro o hmem
      obtain ⟨hm, hi, ho, hc⟩ :=
        (collectGo_mem_fst_iff entries entries (e, o)).mp hmem
      simp only at hc
      rw [hcf] at hc
      exact absurd hc (by simp)
    · apply (collectGo_mem_snd_iff entries entries _).mpr
      exact ⟨e, he, hgd, hcf, rfl⟩
  · intro hyes
    apply (collectGo_mem_fst_iff entries entries
      (e, ⟨e.stem, some "out"⟩)).mpr
    exact ⟨he, hgd, rfl, (containsEntry_true_iff _ _).mpr hyes⟩

/-- Witness for `c8_fixture_pairing` on a directory with one orphan input
and one paired fixture. -/
theorem c8_fixture_pairing_witness :
    ((⟨"a", some "in"⟩ : DirEntry), (⟨"a", some "out"⟩ : DirEntry)) ∉
      (collect_test_cases c8Entries).1 ∧
    ("Warning: No matching output file for " ++
      fileName ⟨"a", some "in"⟩) ∈ (collect_test_cases c8Entries).2 ∧
    ((⟨"b", some "in"⟩ : DirEntry), (⟨"b", some "out"⟩ : DirEntry)) ∈
      (collect_test_cases c8Entries).1 := by
  have h1 := c8_fixture_pairing c8Entries ⟨"a", some "in"⟩
    (by simp [c8Entries]) rfl
  have h2 := c8_fixture_pairing c8Entries ⟨"b", some "in"⟩
    (by simp [c8Entries]) rfl
  have hno : (⟨"a", some "out"⟩ : DirEntry) ∉ c8Entries := by decide
  exact ⟨(h1.1 hno).1 ⟨"a", some "out"⟩, (h1.1 hno).2,
    h2.2 (by simp [c8Entries])⟩

/-! ## Claim C9 -/

/-- C9: when the collected test-case sequence is empty and the build,
executable and timeout lookup are all healthy, the run produces an empty
result list and the suite-level call returns `Ok` — an empty suite passes
vacuously. -/
theorem c9_empty_suite_passes (w : World) (ts : List (String × Nat))
    (t : Nat)
    (hdir : w.problemDirExists = true) (hcomp : w.compileOk = true)
    (hload : load_problem_timeout_settings w.manifestExists w.parseResult =
      .ok ts)
    (hexec : w.executableExists = true)
    (hts : ts.lookup w.problemName = some t)
    (hcases : (collect_test_cases w.testsEntries).1 = []) :
    execute w = some (.ok ()) := by
  have hec : executeCases w = [] := by
    unfold executeCases
    rw [hcases]
    rfl
  simp [execute, hdir, hcomp, hload, return_results, get_execution_path,
    hexec, hts, hec, runCases, suiteVerdict]

/-- Witness for `c9_empty_suite_passes`: a world whose only input fixture is
an orphan. -/
theorem c9_empty_suite_passes_witness :
    execute emptySuiteWorld = some (Except.ok ()) :=
  c9_empty_suite_passes emptySuiteWorld [("abc", 2000)] 2000 rfl rfl rfl rfl
    rfl rfl

/-! ## Claim C10 -/

/-- C10: in every result list produced by a completed `return_results` run,
a result's `error_message` is `Some` exactly when its status is `RE` (so
`AC`, `WA` and `TLE` results carry `None`), and `RE` and `TLE` results are
rendered with an empty actual-output string. -/
theorem c10_error_message_invariant (exec : Bool) (wd : String)
    (cs : List (String × CaseEnv)) (pn : String)
    (ts : List (String × Nat)) (results : List (TestCaseResult × String))
    (h : return_results exec wd cs pn ts = some (.ok results)) :
    ∀ p ∈ results,
      (p.1.error_message.isSome = true ↔ p.1.status = TestStatus.RE) ∧
      ((p.1.status = TestStatus.RE ∨ p.1.status = TestStatus.TLE) →
        p.2 = "") := by
  unfold return_results at h
  split at h
  · exact absurd h (by simp)
  · split at h
    · exact absurd h (by simp)
    next timeout hto =>
      split at h
      · exact absurd h (by simp)
      · exact runCases_ok_invariant timeout cs results h

/-- Witness for `c10_error_message_invariant` at a concrete run producing
one `RE` result. -/
theorem c10_error_message_invariant_witness :
    (c10Result.1.error_message.isSome = true ↔
      c10Result.1.status = TestStatus.RE) ∧
    ((c10Result.1.status = TestStatus.RE ∨
      c10Result.1.status = TestStatus.TLE) → c10Result.2 = "") :=
  c10_error_message_invariant true "w" [("sample_1.in", reEnv)] "abc"
    [("abc", 2000)] [c10Result] rfl c10Result (by simp)

end Atc
